import Mathlib

/-!
Shallow embedding of the core logic of `synapse-admin-tui`:
the editable-field abstraction (`src/common/editable.rs`), the shared
index arithmetic (`src/common/mod.rs`), the modal prompt
(`src/common/prompt.rs`) and the users table view (`src/views/users.rs`).

Rust strings are modelled as `List Char`; byte offsets are tracked
against the UTF-8 byte length of each character (`Char.utf8Size`).
Operations that can panic in Rust (string slicing or insertion at a
non-boundary byte offset, out-of-range indexing, unchecked slice access)
return `Option`, with `none` standing for a panic or undefined behaviour.
`usize` arithmetic wraps modulo `2 ^ 64` exactly where the Rust source
performs unchecked additions or subtractions (release-mode semantics).
Styling information carried by `tui::text::Span` is irrelevant to the
properties at stake, so a span is modelled by its character content only.
-/

/-! ## usize arithmetic and the shared index helpers (src/common/mod.rs) -/

/-- The modulus of 64-bit `usize` arithmetic. -/
def usizeMod : Nat := 18446744073709551616

/-- Wrapping `usize` addition (`add_assign` in release mode). -/
def wadd (a b : Nat) : Nat := (a + b) % usizeMod

/-- Wrapping `usize` subtraction (`sub_assign` in release mode),
assuming both operands are below `usizeMod`. -/
def wsub (a b : Nat) : Nat := (a + usizeMod - b) % usizeMod

/-- `inc_val` from `src/common/mod.rs`: increments `orig` by `amount`
without reaching `max`; returns the new value together with the reported
overflow amount. -/
def inc_val (orig amount max : Nat) : Nat × Nat :=
  let o := wadd orig amount
  if max ≤ o then
    if max = 0 then (0, amount)
    else (max - 1, o - (max - 1))
  else (o, 0)

/-- `dec_val` from `src/common/mod.rs`: decrements `orig` by `amount`,
saturating at `0`. -/
def dec_val (orig amount : Nat) : Nat :=
  if orig ≤ amount then 0 else orig - amount

/-- `apply_offset` from `src/common/mod.rs`. The `offset.abs() as usize`
conversion is `Int.natAbs` (for `isize::MIN` this matches the
release-mode wrap). -/
def apply_offset (orig : Nat) (offset : Int) (max : Nat) : Nat × Nat :=
  if 0 < offset then inc_val orig offset.natAbs max
  else (dec_val orig offset.natAbs, 0)

/-- Folds a sequence of `apply_offset` calls over a single index,
keeping only the index (the overflow return value is discarded by every
caller in the source). -/
def applyMany (orig : Nat) (offsets : List Int) (max : Nat) : Nat :=
  match offsets with
  | [] => orig
  | d :: ds => applyMany (apply_offset orig d max).1 ds max

/-! ## UTF-8 byte bookkeeping -/

/-- Byte length of a string, as `String::len` on the Rust side. -/
def utf8Len : List Char → Nat
  | [] => 0
  | c :: cs => c.utf8Size + utf8Len cs

/-- The prefix of `s` occupying exactly `n` bytes; `none` when `n` is
out of range or falls strictly inside a multi-byte character (where the
Rust slice `&s[..n]` panics). -/
def takeBytes : List Char → Nat → Option (List Char)
  | _, 0 => some []
  | [], _ => none
  | c :: cs, n =>
    if n < c.utf8Size then none
    else (takeBytes cs (n - c.utf8Size)).map (fun t => c :: t)

/-- The suffix of `s` after its first `n` bytes; `none` when the Rust
slice `&s[n..]` would panic. -/
def dropBytes : List Char → Nat → Option (List Char)
  | s, 0 => some s
  | [], _ => none
  | c :: cs, n =>
    if n < c.utf8Size then none
    else dropBytes cs (n - c.utf8Size)

/-- `n` is a character boundary of `s` in the sense of
`str::is_char_boundary`: `0 ≤ n ≤ utf8Len s` and `n` does not fall
inside a multi-byte character. -/
def isCharBoundary (s : List Char) (n : Nat) : Bool :=
  (takeBytes s n).isSome

/-- `String::insert(idx, ch)`: `none` models the panic on a
non-boundary or out-of-range byte index. -/
def insertAt : List Char → Nat → Char → Option (List Char)
  | s, 0, ch => some (ch :: s)
  | [], _, _ => none
  | c :: cs, n, ch =>
    if n < c.utf8Size then none
    else (insertAt cs (n - c.utf8Size) ch).map (fun t => c :: t)

/-- `String::remove(idx)`: returns the removed character and the rest;
`none` models the panic on a non-boundary or out-of-range byte index. -/
def removeAt : List Char → Nat → Option (Char × List Char)
  | [], _ => none
  | c :: cs, n =>
    if n = 0 then some (c, cs)
    else if n < c.utf8Size then none
    else (removeAt cs (n - c.utf8Size)).map (fun p => (p.1, c :: p.2))

/-- The `prev_offset` scan of the `Backspace` arm of
`Editable::handle_event`: walks `char_indices`, remembering the last
char start seen strictly before `cursor` (or the last one overall when
`cursor` is never hit). `idx` is the byte index of the head of the
remaining list, `prev` the last recorded offset. -/
def prevOffset (cursor : Nat) : Nat → Nat → List Char → Nat
  | _, prev, [] => prev
  | idx, prev, c :: cs =>
    if idx = cursor then prev
    else prevOffset cursor (idx + c.utf8Size) idx cs

/-- Strict UTF-8 encoding of one character. -/
def encodeChar (c : Char) : List Nat :=
  let n := c.toNat
  if n < 128 then [n]
  else if n < 2048 then [192 + n / 64, 128 + n % 64]
  else if n < 65536 then
    [224 + n / 4096, 128 + (n / 64) % 64, 128 + n % 64]
  else
    [240 + n / 262144, 128 + (n / 4096) % 64, 128 + (n / 64) % 64, 128 + n % 64]

/-- The UTF-8 byte representation of a string (`str::as_bytes`). -/
def utf8Bytes (s : List Char) : List Nat :=
  (s.map encodeChar).flatten

/-- A UTF-8 continuation byte. -/
def isCont (b : Nat) : Bool := 128 ≤ b && b ≤ 191

/-- Strict UTF-8 decoding of a whole byte sequence, with the same
acceptance set as `std::str::from_utf8` (no overlong forms, no
surrogates, nothing above `U+10FFFF`). -/
def decodeUtf8 : List Nat → Option (List Char)
  | [] => some []
  | b0 :: rest =>
    if b0 < 128 then
      (decodeUtf8 rest).map (fun t => Char.ofNat b0 :: t)
    else if 194 ≤ b0 && b0 ≤ 223 then
      match rest with
      | b1 :: rest2 =>
        if isCont b1 then
          (decodeUtf8 rest2).map (fun t => Char.ofNat ((b0 - 192) * 64 + (b1 - 128)) :: t)
        else none
      | [] => none
    else if 224 ≤ b0 && b0 ≤ 239 then
      match rest with
      | b1 :: b2 :: rest3 =>
        let b1ok :=
          (b0 = 224 && 160 ≤ b1 && b1 ≤ 191) ||
          (225 ≤ b0 && b0 ≤ 236 && isCont b1) ||
          (b0 = 237 && 128 ≤ b1 && b1 ≤ 159) ||
          (238 ≤ b0 && b0 ≤ 239 && isCont b1)
        if b1ok && isCont b2 then
          (decodeUtf8 rest3).map
            (fun t => Char.ofNat ((b0 - 224) * 4096 + (b1 - 128) * 64 + (b2 - 128)) :: t)
        else none
      | _ => none
    else if 240 ≤ b0 && b0 ≤ 244 then
      match rest with
      | b1 :: b2 :: b3 :: rest4 =>
        let b1ok :=
          (b0 = 240 && 144 ≤ b1 && b1 ≤ 191) ||
          (241 ≤ b0 && b0 ≤ 243 && isCont b1) ||
          (b0 = 244 && 128 ≤ b1 && b1 ≤ 143)
        if b1ok && isCont b2 && isCont b3 then
          (decodeUtf8 rest4).map
            (fun t =>
              Char.ofNat
                ((b0 - 240) * 262144 + (b1 - 128) * 4096 + (b2 - 128) * 64 + (b3 - 128)) :: t)
        else none
      | _ => none
    else none

/-- `decode_char` from `src/common/mod.rs`: tries to decode
`&bytes[offset..offset + i]` for `i = 1, 2, 3, 4`, falling back to
`"?"`; `none` models the panic of the slice when `offset + i` runs past
the end of `bytes` before a decode succeeds. -/
def decode_char (bytes : List Nat) (offset : Nat) : Option (List Char) :=
  tryAt 1 (tryAt 2 (tryAt 3 (tryAt 4 (some [Char.ofNat 63]))))
where
  tryAt (i : Nat) (next : Option (List Char)) : Option (List Char) :=
    if bytes.length < offset + i then none
    else
      match decodeUtf8 ((bytes.drop offset).take i) with
      | some s => some s
      | none => next

/-! ## Key events and handler results (src/common/mod.rs, crossterm) -/

/-- The subset of `crossterm::event::KeyCode` the program inspects. -/
inductive KeyCode where
  | char (c : Char)
  | enter
  | esc
  | backspace
  | delete
  | left
  | right
  | home
  | endKey
  | up
  | down
  | pageUp
  | pageDown
  | tab
  | backTab
  | f (n : Nat)
  deriving DecidableEq, Repr

/-- `HandleRes` from `src/common/mod.rs`. -/
inductive HandleRes where
  | Exit (b : Bool)
  | Handled
  | ReDraw
  | Ignored
  deriving DecidableEq, Repr

/-! ## The editable-field abstraction (src/common/editable.rs) -/

/-- `MutStr`: an editable string with its lazily captured baseline and
a byte-offset cursor. -/
structure MutStr where
  cur : List Char
  orig : Option (List Char)
  cursor : Nat
  deriving DecidableEq, Repr

/-- `MutStr::save_cur`: captures the baseline if none is captured yet. -/
def MutStr.save_cur (s : MutStr) : MutStr :=
  match s.orig with
  | none => { s with orig := some s.cur }
  | some _ => s

/-- The `Editable` field enum. The Rust variant `Bool` is named `BoolE`
here to avoid clashing with the `Bool` type. -/
inductive Editable where
  | ConstStr (s : List Char)
  | ConstBool (b : Bool)
  | Str (s : MutStr)
  | BoolE (cur : Bool) (orig : Option Bool)
  deriving DecidableEq, Repr

/-- `Editable::ro_string`. -/
def Editable.ro_string (s : List Char) : Editable := .ConstStr s

/-- `Editable::ro_bool`. -/
def Editable.ro_bool (b : Bool) : Editable := .ConstBool b

/-- `Editable::string`: cursor starts at end-of-text (`s.len()`). -/
def Editable.string (s : List Char) : Editable :=
  .Str { cur := s, orig := none, cursor := utf8Len s }

/-- `Editable::bool`. -/
def Editable.bool (b : Bool) : Editable := .BoolE b none

/-- The characters of `"true"`. -/
def trueChars : List Char := ['t', 'r', 'u', 'e']

/-- The characters of `"false"`. -/
def falseChars : List Char := ['f', 'a', 'l', 's', 'e']

/-- `Editable::as_str`. -/
def Editable.as_str : Editable → List Char
  | .ConstStr s => s
  | .Str s => s.cur
  | .BoolE b _ => if b then trueChars else falseChars
  | .ConstBool b => if b then trueChars else falseChars

/-- `Editable::as_spans`, with spans reduced to their character
content. `none` models a panic in one of the byte slices. -/
def Editable.as_spans (e : Editable) (is_editing : Bool) : Option (List (List Char)) :=
  if is_editing then
    match e with
    | .Str s =>
      let pre : Option (List (List Char)) :=
        if 0 < s.cursor then (takeBytes s.cur s.cursor).map (fun t => [t]) else some []
      match pre with
      | none => none
      | some r0 =>
        if s.cursor < utf8Len s.cur then
          match decode_char (utf8Bytes s.cur) s.cursor with
          | none => none
          | some cursor_char =>
            match dropBytes s.cur (s.cursor + utf8Len cursor_char) with
            | none => none
            | some suffix => some (r0 ++ [cursor_char, suffix])
        else some (r0 ++ [[' ']])
    | _ => some [e.as_str]
  else some [e.as_str]

/-- `Editable::handle_event`. `none` models a panic (string mutation at
a non-boundary byte offset). -/
def Editable.handle_event (e : Editable) (key : KeyCode) : Option (Editable × HandleRes) :=
  match e with
  | .BoolE cur orig =>
    match key with
    | .enter =>
      let orig2 := match orig with | none => some cur | some v => some v
      some (.BoolE (!cur) orig2, .ReDraw)
    | _ => some (e, .Ignored)
  | .Str s =>
    match key with
    | .char c =>
      let cursor := s.cursor
      let s1 := s.save_cur
      match insertAt s1.cur cursor c with
      | none => none
      | some newCur =>
        some (.Str { cur := newCur, orig := s1.orig, cursor := wadd s.cursor c.utf8Size }, .ReDraw)
    | .delete =>
      if s.cursor < utf8Len s.cur then
        let s1 := s.save_cur
        match removeAt s1.cur s.cursor with
        | none => none
        | some p => some (.Str { s1 with cur := p.2 }, .ReDraw)
      else some (e, .Handled)
    | .backspace =>
      if 0 < s.cursor then
        let s1 := s.save_cur
        let p := prevOffset s.cursor 0 0 s1.cur
        match removeAt s1.cur p with
        | none => none
        | some q =>
          some (.Str { cur := q.2, orig := s1.orig, cursor := wsub s.cursor q.1.utf8Size }, .ReDraw)
      else some (e, .Handled)
    | .left =>
      if 0 < s.cursor then some (.Str { s with cursor := dec_val s.cursor 1 }, .ReDraw)
      else some (e, .Handled)
    | .right =>
      let nw := (inc_val s.cursor 1 (utf8Len s.cur + 1)).1
      if s.cursor ≠ nw then some (.Str { s with cursor := nw }, .ReDraw)
      else some (e, .Handled)
    | .endKey =>
      if s.cursor ≠ utf8Len s.cur then some (.Str { s with cursor := utf8Len s.cur }, .ReDraw)
      else some (e, .Handled)
    | .home =>
      if s.cursor ≠ 0 then some (.Str { s with cursor := 0 }, .ReDraw)
      else some (e, .Handled)
    | _ => some (e, .Ignored)
  | _ => some (e, .Ignored)

/-- `Editable::is_changed`. -/
def Editable.is_changed : Editable → Bool
  | .ConstBool _ => false
  | .ConstStr _ => false
  | .BoolE cur orig =>
    match orig with
    | some o => if cur = o then false else true
    | none => false
  | .Str s =>
    match s.orig with
    | some o => if s.cur = o then false else true
    | none => false

/-- `Editable::is_editable`. -/
def Editable.is_editable : Editable → Bool
  | .ConstStr _ => false
  | .ConstBool _ => false
  | _ => true

/-- `Editable::restore_orig`. Note: for `Str` the current text is
cleared first and the baseline (if any) is pushed back, the cursor and
the baseline are left untouched; for `BoolE` the baseline is `take`n. -/
def Editable.restore_orig : Editable → Editable
  | .Str s =>
    match s.orig with
    | some o => .Str { s with cur := o }
    | none => .Str { s with cur := [] }
  | .BoolE cur orig =>
    match orig with
    | some v => .BoolE v none
    | none => .BoolE cur none
  | e => e

/-- `Editable::forget_orig`. -/
def Editable.forget_orig : Editable → Editable
  | .Str s => .Str { s with orig := none }
  | .BoolE cur _ => .BoolE cur none
  | e => e

/-! ## The modal prompt (src/common/prompt.rs) -/

/-- `Prompt` state. -/
structure Prompt where
  msg : List Char
  error : List Char
  fields : List (List Char × Editable)
  true_button : List Char
  false_button : List Char
  cursor : Nat
  deriving DecidableEq, Repr

/-- The default (empty) prompt. -/
def Prompt.default : Prompt :=
  { msg := [], error := [], fields := [], true_button := [], false_button := [], cursor := 0 }

/-- `Prompt::clear`. -/
def Prompt.clear (_p : Prompt) : Prompt := Prompt.default

/-- The navigation tail of `Prompt::handle_event`: shifts the unified
cursor over `fields.len() + 1` via `apply_offset`. -/
def Prompt.nav (p : Prompt) (amount : Int) : Prompt × HandleRes :=
  let old := p.cursor
  let nw := (apply_offset old amount (p.fields.length + 1)).1
  ({ p with cursor := nw }, if old ≠ nw then .ReDraw else .Handled)

/-- `Prompt::handle_event` (for key events; other events yield
`Ignored` untouched). `none` models a panic inside the focused field's
handler. -/
def Prompt.handle_event (p : Prompt) (key : KeyCode) : Option (Prompt × HandleRes) :=
  let step1 : Option (Prompt × Option HandleRes) :=
    if p.cursor < p.fields.length then
      match p.fields[p.cursor]? with
      | none => none
      | some nw =>
        match nw.2.handle_event key with
        | none => none
        | some wr =>
          let p2 := { p with fields := p.fields.set p.cursor (nw.1, wr.1) }
          match wr.2 with
          | .ReDraw => some (p2, some .ReDraw)
          | .Handled => some (p2, some .Handled)
          | _ => some (p2, none)
    else some (p, none)
  match step1 with
  | none => none
  | some (p1, some r) => some (p1, r)
  | some (p1, none) =>
    match key with
    | .down => some (p1.nav 1)
    | .up => some (p1.nav (-1))
    | .pageDown => some (p1.nav 5)
    | .pageUp => some (p1.nav (-5))
    | .enter => some (p1, .Exit true)
    | .esc => some (p1, .Exit false)
    | _ => some (p1, .Ignored)

/-! ## The users table view (src/views/users.rs) -/

/-- `CurPrompt` from `src/views/users.rs`. -/
inductive CurPrompt where
  | None
  | Notice
  | SaveChanges
  deriving DecidableEq, Repr

/-- `SyncState` from `src/views/users.rs` (`Some` = more rows may
exist, `Max` = exhausted). -/
inductive SyncState where
  | Some
  | Max
  deriving DecidableEq, Repr

/-- The fields of `UserInfoV1` that the users view consumes. -/
structure UserInfoV1 where
  name : List Char
  displayname : List Char
  admin : Bool
  is_guest : Bool
  deactivated : Bool
  deriving DecidableEq, Repr

/-- Number of columns, `USER_COLUMNS.len()`. -/
def USER_COLUMNS_len : Nat := 5

/-- `UsersView` state. The rendering-only `user_list_state` is
omitted. -/
structure UsersView where
  cur_prompt : CurPrompt
  prompt : Prompt
  sync_state : SyncState
  editing : Bool
  focus_x : Nat
  focus_y : Nat
  user_list : List (List Editable)
  deriving DecidableEq, Repr

/-- The row built for one fetched user record in `load_next_chunk`. -/
def mkRow (u : UserInfoV1) : List Editable :=
  [Editable.ro_string u.name,
   Editable.string u.displayname,
   Editable.bool u.admin,
   Editable.bool u.is_guest,
   Editable.bool (!u.deactivated)]

/-- The result of `Synapse::list_users`, abstracted: a page of records
or an error string. -/
inductive FetchRes where
  | ok (users : List UserInfoV1)
  | err (e : List Char)
  deriving DecidableEq, Repr

/-- The result of `load_next_chunk`: the number of records received or
an error string. -/
inductive LoadRes where
  | ok (n : Nat)
  | err (e : List Char)
  deriving DecidableEq, Repr

/-- `UsersView::load_next_chunk`, with the backend abstracted into a
`fetch` oracle (`offset → limit → FetchRes`). The third component
counts how many times `list_users` was invoked. -/
def UsersView.load_next_chunk (v : UsersView) (fetch : Nat → Nat → FetchRes) :
    UsersView × LoadRes × Nat :=
  match v.sync_state with
  | .Max => (v, .ok 0, 0)
  | .Some =>
    match fetch v.user_list.length 32 with
    | .err e => (v, .err e, 1)
    | .ok l =>
      ({ v with
          user_list := v.user_list ++ l.map mkRow,
          sync_state := if l.length < 32 then .Max else .Some },
        .ok l.length, 1)

/-- Repeated `load_next_chunk` calls, one per oracle in the list;
returns the final view, every call's result, and the total number of
`list_users` invocations. -/
def UsersView.loadMany (v : UsersView) (fetches : List (Nat → Nat → FetchRes)) :
    UsersView × List LoadRes × Nat :=
  match fetches with
  | [] => (v, [], 0)
  | f :: fs =>
    let one := v.load_next_chunk f
    let rest := UsersView.loadMany one.1 fs
    (rest.1, one.2.1 :: rest.2.1, one.2.2 + rest.2.2)

/-- `UsersView::cur_item`: `none` models a panic or the undefined
behaviour of `get_unchecked_mut` out of bounds; otherwise returns the
view with clamped focus and the focused cell's position (or no position
when the list is empty). -/
def UsersView.cur_item (v : UsersView) : Option (UsersView × Option (Nat × Nat)) :=
  if v.user_list.isEmpty then some (v, none)
  else
    let y := if v.user_list.length ≤ v.focus_y then 0 else v.focus_y
    match v.user_list[y]? with
    | none => none
    | some row =>
      let x := if row.length ≤ v.focus_x then 0 else v.focus_x
      if x < row.length then some ({ v with focus_y := y, focus_x := x }, some (y, x))
      else none

/-- `UsersView::editing_item`. -/
def UsersView.editing_item (v : UsersView) : Option (UsersView × Option (Nat × Nat)) :=
  if v.editing then v.cur_item else some (v, none)

/-- Reads the cell at `(y, x)`. -/
def UsersView.getItem (v : UsersView) (y x : Nat) : Option Editable :=
  match v.user_list[y]? with
  | some row => row[x]?
  | none => none

/-- Writes the cell at `(y, x)`. -/
def UsersView.setItem (v : UsersView) (y x : Nat) (e : Editable) : UsersView :=
  { v with user_list := v.user_list.set y ((v.user_list.getD y []).set x e) }

/-- The characters of `"Ok"`. -/
def okChars : List Char := ['O', 'k']

/-- The error path shared by `enter_view` and the `F(5)` arm: clear the
prompt, push the error text and the `"Ok"` button, switch to the notice
prompt. -/
def UsersView.noticeSetup (v : UsersView) (e : List Char) : UsersView :=
  let p0 := v.prompt.clear
  { v with
      prompt := { p0 with error := p0.error ++ e, true_button := p0.true_button ++ okChars },
      cur_prompt := .Notice }

/-- Which focus axis a navigation key moves. -/
inductive Axis where
  | X
  | Y
  deriving DecidableEq, Repr

/-- The shared tail of the navigation arms of
`UsersView::handle_event`: `apply_offset` on one axis, then the
edit-mode-disabling `cur_item` check, then `ReDraw`/`Handled` by
whether the index moved. -/
def UsersView.navTail (v : UsersView) (a : Axis) (amount : Int) (max : Nat) :
    Option (UsersView × HandleRes × Nat) :=
  let old := match a with | .X => v.focus_x | .Y => v.focus_y
  let nw := (apply_offset old amount max).1
  let v1 := match a with | .X => { v with focus_x := nw } | .Y => { v with focus_y := nw }
  match v1.cur_item with
  | none => none
  | some (v2, some yx) =>
    match v2.getItem yx.1 yx.2 with
    | none => none
    | some i =>
      let v3 := if !i.is_editable && v2.editing then { v2 with editing := false } else v2
      some (v3, if old ≠ nw then .ReDraw else .Handled, 0)
  | some (v2, none) => some (v2, if old ≠ nw then .ReDraw else .Handled, 0)

/-- The key dispatch of `UsersView::handle_event` after the prompt
pre-handling and the editing-item forwarding. -/
def UsersView.handle_key (v : UsersView) (fetch : Nat → Nat → FetchRes) (key : KeyCode) :
    Option (UsersView × HandleRes × Nat) :=
  match key with
  | .down => v.navTail .Y 1 v.user_list.length
  | .up => v.navTail .Y (-1) v.user_list.length
  | .right => v.navTail .X 1 USER_COLUMNS_len
  | .left => v.navTail .X (-1) USER_COLUMNS_len
  | .pageDown => v.navTail .Y 5 v.user_list.length
  | .pageUp => v.navTail .Y (-5) v.user_list.length
  | .f 5 =>
    let v1 := { v with focus_y := 0, user_list := [] }
    let lc := v1.load_next_chunk fetch
    match lc.2.1 with
    | .err e => some (lc.1.noticeSetup e, .ReDraw, lc.2.2)
    | .ok _ => some (lc.1, .ReDraw, lc.2.2)
  | .enter =>
    if v.editing then some ({ v with editing := false }, .ReDraw, 0)
    else
      match v.cur_item with
      | none => none
      | some (v1, some yx) =>
        match v1.getItem yx.1 yx.2 with
        | none => none
        | some i =>
          if !i.is_editable then some (v1, .Handled, 0)
          else some ({ v1 with editing := true }, .ReDraw, 0)
      | some (v1, none) => some (v1, .ReDraw, 0)
  | .esc =>
    if v.editing then
      let v1 := { v with editing := false }
      match v1.editing_item with
      | none => none
      | some (v2, some yx) =>
        match v2.getItem yx.1 yx.2 with
        | none => none
        | some i => some (v2.setItem yx.1 yx.2 i.restore_orig, .ReDraw, 0)
      | some (v2, none) => some (v2, .ReDraw, 0)
    else some (v, .Ignored, 0)
  | _ => some (v, .Ignored, 0)

/-- The part of `UsersView::handle_event` after the `cur_prompt`
pre-handling: forward the key to the focused cell while editing, then
fall through to `handle_key`. -/
def UsersView.handle_event_main (v : UsersView) (fetch : Nat → Nat → FetchRes)
    (key : KeyCode) : Option (UsersView × HandleRes × Nat) :=
  match v.editing_item with
  | none => none
  | some (v1, some yx) =>
    match v1.getItem yx.1 yx.2 with
    | none => none
    | some i =>
      match i.handle_event key with
      | none => none
      | some ir =>
        let v2 := v1.setItem yx.1 yx.2 ir.1
        match ir.2 with
        | .ReDraw => some (v2, .ReDraw, 0)
        | .Handled => some (v2, .Handled, 0)
        | _ => v2.handle_key fetch key
  | some (v1, none) => v1.handle_key fetch key

/-- `UsersView::handle_event` (for key events). While a notice or
save-changes prompt is active, only an `Exit` result from the prompt is
intercepted; every other result falls through to the table logic. -/
def UsersView.handle_event (v : UsersView) (fetch : Nat → Nat → FetchRes)
    (key : KeyCode) : Option (UsersView × HandleRes × Nat) :=
  match v.cur_prompt with
  | .None => v.handle_event_main fetch key
  | _ =>
    match v.prompt.handle_event key with
    | none => none
    | some (p1, .Exit _) =>
      some ({ v with prompt := p1, cur_prompt := .None }, .ReDraw, 0)
    | some (p1, _) => UsersView.handle_event_main { v with prompt := p1 } fetch key

/-- The baseline of a text field, if the field is a text field with a
captured baseline. -/
def Editable.strOrig : Editable → Option (List Char)
  | .Str s => s.orig
  | _ => none

/-! ## Concrete fixtures used by counterexamples and witnesses -/

/-- A sample fetched user record. -/
def exUser : UserInfoV1 :=
  { name := ['u'], displayname := ['d'], admin := false, is_guest := false, deactivated := false }

/-- A fetch oracle returning a single record (a short page). -/
def exFetch : Nat → Nat → FetchRes := fun _ _ => .ok [exUser]

/-- A users view with default bookkeeping and no rows. -/
def exViewBase : UsersView :=
  { cur_prompt := .None, prompt := Prompt.default, sync_state := .Some,
    editing := false, focus_x := 0, focus_y := 0, user_list := [] }

/-- An exhausted users view with one row and focus on column 3. -/
def exViewExhausted : UsersView :=
  { exViewBase with
    sync_state := .Max, focus_x := 3, focus_y := 2,
    user_list := [mkRow exUser] }

/-- A row whose display-name cell holds a pending (dirty) edit:
current text `"hix"`, baseline `"hi"`. -/
def exRowEditing : List Editable :=
  [.ConstStr ['u'],
   .Str { cur := ['h', 'i', 'x'], orig := some ['h', 'i'], cursor := 3 },
   .BoolE false none,
   .BoolE false none,
   .BoolE true none]

/-- A users view in edit mode on the dirty display-name cell. -/
def exViewEditing : UsersView :=
  { exViewBase with editing := true, focus_x := 1, user_list := [exRowEditing] }

/-- The notice prompt raised for an error: message-less, an error text
and a single `"Ok"` button. -/
def exNoticePrompt : Prompt :=
  { Prompt.default with error := ['e'], true_button := okChars }

/-- A users view with two rows and an active notice prompt. -/
def exViewNotice : UsersView :=
  { exViewBase with
    cur_prompt := .Notice, prompt := exNoticePrompt,
    user_list := [mkRow exUser, mkRow exUser] }

/-! ## Theorems -/

/-- C1: the claim fails on the code. Starting from the valid one-character
string `"é"` (2 bytes, cursor at end-of-text), a single `Left` key event
moves the cursor to byte offset 1, which is not a character boundary,
and `as_spans` then panics slicing `&cur[..1]` inside the 2-byte
character. -/
theorem c1_left_breaks_boundary :
    Editable.handle_event (Editable.string ['é']) .left
        = some (.Str { cur := ['é'], orig := none, cursor := 1 }, .ReDraw)
      ∧ isCharBoundary ['é'] 1 = false
      ∧ Editable.as_spans (.Str { cur := ['é'], orig := none, cursor := 1 }) true = none := by
  decide

/-- C2: the claim fails on the code. On `"aé"` with the cursor at
end-of-text (byte 3), `Left` moves the cursor by exactly one byte to
offset 2 — inside the 2-byte character `'é'` — instead of by the
character's full byte length to offset 1; symmetrically `Right` from
offset 1 lands at offset 2 instead of 3. -/
theorem c2_arrows_move_one_byte :
    Editable.handle_event (.Str { cur := ['a', 'é'], orig := none, cursor := 3 }) .left
        = some (.Str { cur := ['a', 'é'], orig := none, cursor := 2 }, .ReDraw)
      ∧ Editable.handle_event (.Str { cur := ['a', 'é'], orig := none, cursor := 1 }) .right
        = some (.Str { cur := ['a', 'é'], orig := none, cursor := 2 }, .ReDraw)
      ∧ isCharBoundary ['a', 'é'] 2 = false
      ∧ (3 : Nat) - Char.utf8Size 'é' = 1
      ∧ (2 : Nat) ≠ 1 := by
  decide

/-- C3 counterexample: after inserting `'b'` into the text field
`"a"` (capturing baseline `"a"`), `forget_orig` followed by
`restore_orig` does not leave the current value `"ab"` unchanged — it
clears the text to the empty string. -/
theorem c3_forget_then_revert_clears :
    Editable.handle_event (Editable.string ['a']) (.char 'b')
        = some (.Str { cur := ['a', 'b'], orig := some ['a'], cursor := 2 }, .ReDraw)
      ∧ (Editable.restore_orig (Editable.forget_orig
          (.Str { cur := ['a', 'b'], orig := some ['a'], cursor := 2 }))).as_str = []
      ∧ (['a', 'b'] : List Char) ≠ [] := by
  decide

/-- C4 counterexample: `restore_orig` on a text field with baseline
`"abcd"` and cursor 0 restores the text but leaves the cursor at 0
instead of moving it to end-of-text (byte 4); and on a flag field it
clears (`take`s) the baseline rather than leaving it unchanged. -/
theorem c4_cursor_and_flag_baseline :
    Editable.restore_orig (.Str { cur := ['a', 'b'], orig := some ['a', 'b', 'c', 'd'], cursor := 0 })
        = .Str { cur := ['a', 'b', 'c', 'd'], orig := some ['a', 'b', 'c', 'd'], cursor := 0 }
      ∧ (0 : Nat) ≠ utf8Len ['a', 'b', 'c', 'd']
      ∧ Editable.restore_orig (.BoolE true (some false)) = .BoolE false none
      ∧ (none : Option Bool) ≠ some false := by
  decide

/-- C4 as amended: with a captured baseline, `restore_orig` restores
`current` from `original`; for a text field the baseline is retained
and the cursor is left where it was (not moved to end-of-text); for a
flag field the baseline is taken (cleared). -/
theorem c4_restore_with_baseline (s o : List Char) (c : Nat) (b ob : Bool) :
    Editable.restore_orig (.Str { cur := s, orig := some o, cursor := c })
        = .Str { cur := o, orig := some o, cursor := c }
      ∧ Editable.restore_orig (.BoolE b (some ob)) = .BoolE ob none :=
  ⟨rfl, rfl⟩

/-- C6: the claim fails on the code. Pressing `F5` on an exhausted view
clears the rows and resets `focus_y`, but does not reset `focus_x`
(still 3), does not reset the sync state to `Some`/HasMore, and the
ensuing `load_next_chunk` therefore returns without invoking the
fetch even once (third component 0) — leaving the table empty. -/
theorem c6_refresh_keeps_exhausted :
    UsersView.handle_event exViewExhausted exFetch (.f 5)
        = some ({ exViewExhausted with focus_y := 0, user_list := [] }, .ReDraw, 0)
      ∧ ({ exViewExhausted with focus_y := 0, user_list := [] }).sync_state = .Max
      ∧ ({ exViewExhausted with focus_y := 0, user_list := [] }).focus_x = 3 := by
  decide

/-- C7: the claim fails on the code. With edit mode active on a dirty
text field (current `"hix"`, baseline `"hi"`), `Escape` exits edit mode
but leaves the field un-reverted: `editing` is set to `false` before
`editing_item()` is consulted, so the `restore_orig` call is dead code.
Reverting would have produced `"hi"`. -/
theorem c7_escape_does_not_revert :
    UsersView.handle_event exViewEditing exFetch .esc
        = some ({ exViewEditing with editing := false }, .ReDraw, 0)
      ∧ Editable.is_changed (.Str { cur := ['h', 'i', 'x'], orig := some ['h', 'i'], cursor := 3 }) = true
      ∧ (Editable.restore_orig
          (.Str { cur := ['h', 'i', 'x'], orig := some ['h', 'i'], cursor := 3 })).as_str
        = ['h', 'i'] := by
  decide

/-- C8: the claim fails on the code. With the notice prompt active, a
`Down` key event is passed to the prompt, whose non-`Exit` result is
discarded, and the event then falls through to the table's navigation
logic: `focus_y` moves from 0 to 1 while the prompt is still shown. -/
theorem c8_notice_prompt_leaks_navigation :
    exViewNotice.cur_prompt = .Notice
      ∧ UsersView.handle_event exViewNotice exFetch .down
        = some ({ exViewNotice with focus_y := 1 }, .ReDraw, 0)
      ∧ exViewNotice.focus_y = 0 := by
  decide

/-- C9 counterexample: for `max = 2^63 + 2` and in-range index
`2^63 + 1`, a positive overshoot by the valid `isize` delta `2^63 - 1`
wraps the unchecked `usize` addition to 0, so the index lands at 0
instead of saturating at `max - 1`. -/
theorem c9_overshoot_wraps :
    apply_offset 9223372036854775809 9223372036854775807 9223372036854775810 = (0, 0)
      ∧ (9223372036854775809 : Nat) < 9223372036854775810
      ∧ (9223372036854775810 : Nat) ≤ 9223372036854775809 + (9223372036854775807 : Int).natAbs
      ∧ (0 : Nat) ≠ 9223372036854775810 - 1 := by
  decide

/-- Every single `apply_offset` call keeps the index inside `[0, max)`
(or at 0 when `max = 0`). -/
theorem apply_offset_pres (max orig : Nat) (d : Int)
    (h : orig < max ∨ (max = 0 ∧ orig = 0)) :
    (apply_offset orig d max).1 < max ∨ (max = 0 ∧ (apply_offset orig d max).1 = 0) := by
  simp only [apply_offset, inc_val, dec_val, wadd, usizeMod]
  split <;> split <;> (try split) <;> (try dsimp only) <;> omega

/-- Any sequence of `apply_offset` calls keeps the index inside
`[0, max)` (or at 0 when `max = 0`). -/
theorem applyMany_pres (max : Nat) (offs : List Int) (orig : Nat)
    (h : orig < max ∨ (max = 0 ∧ orig = 0)) :
    applyMany orig offs max < max ∨ (max = 0 ∧ applyMany orig offs max = 0) := by
  induction offs generalizing orig with
  | nil => simpa [applyMany] using h
  | cons d ds ih =>
    rw [applyMany]
    exact ih _ (apply_offset_pres max orig d h)

/-- A positive overshoot saturates at `max - 1` as long as the
underlying `usize` addition does not wrap. -/
theorem apply_offset_saturates (o : Nat) (d : Int) (max : Nat)
    (hd : 0 < d) (hn : o + d.natAbs < usizeMod) (hm : max ≤ o + d.natAbs) (h0 : 0 < max) :
    (apply_offset o d max).1 = max - 1 := by
  simp only [usizeMod] at hn
  simp only [apply_offset, inc_val, wadd, usizeMod, if_pos hd]
  rw [Nat.mod_eq_of_lt hn, if_pos hm, if_neg (by omega)]

/-- A negative overshoot saturates at 0. -/
theorem apply_offset_floor (o : Nat) (d : Int) (max : Nat)
    (hd : d < 0) (hn : o ≤ d.natAbs) :
    (apply_offset o d max).1 = 0 := by
  simp only [apply_offset, inc_val, dec_val, wadd, usizeMod]
  rw [if_neg (by omega), if_pos hn]

/-- C9 as amended: for every `max`, every starting index in range and
every sequence of shifts, the index stays in `[0, max)` (or at 0 when
`max = 0`); a positive overshoot saturates at `max - 1` provided the
unchecked `usize` addition `index + |delta|` does not wrap (for wrapping
inputs see the counterexample); a negative overshoot saturates at 0. -/
theorem c9_shift_clamp :
    (∀ (max orig : Nat) (offs : List Int),
        (orig < max ∨ (max = 0 ∧ orig = 0)) →
        applyMany orig offs max < max ∨ (max = 0 ∧ applyMany orig offs max = 0))
      ∧ (∀ (o : Nat) (d : Int) (max : Nat),
          0 < d → o + d.natAbs < usizeMod → max ≤ o + d.natAbs → 0 < max →
          (apply_offset o d max).1 = max - 1)
      ∧ (∀ (o : Nat) (d : Int) (max : Nat),
          d < 0 → o ≤ d.natAbs → (apply_offset o d max).1 = 0) :=
  ⟨fun max orig offs h => applyMany_pres max offs orig h,
   apply_offset_saturates, apply_offset_floor⟩

/-- Witness for C9: with `max = 5` from index 4, the sequence
`+3, -10, +2` stays in range; `shift(+3, 5)` from 4 saturates at 4
(Scenario C); `shift(-7)` from 4 saturates at 0. -/
theorem c9_witness :
    (applyMany 4 [3, -10, 2] 5 < 5 ∨ ((5 : Nat) = 0 ∧ applyMany 4 [3, -10, 2] 5 = 0))
      ∧ (apply_offset 4 3 5).1 = 5 - 1
      ∧ (apply_offset 4 (-7) 5).1 = 0 :=
  ⟨c9_shift_clamp.1 5 4 [3, -10, 2] (Or.inl (by decide)),
   c9_shift_clamp.2.1 4 3 5 (by decide) (by decide) (by decide) (by decide),
   c9_shift_clamp.2.2 4 (-7) 5 (by decide) (by decide)⟩

/-- On a text field with no captured baseline, any handled key event
either leaves the baseline empty or captures exactly the pre-edit
text. -/
theorem handle_event_str_baseline (s : List Char) (cursor : Nat) (k : KeyCode)
    (f1 : Editable) (r : HandleRes)
    (h : Editable.handle_event (.Str { cur := s, orig := none, cursor := cursor }) k
          = some (f1, r)) :
    Editable.strOrig f1 = none ∨ Editable.strOrig f1 = some s := by
  cases k <;> simp only [Editable.handle_event, MutStr.save_cur] at h
  case char c =>
    cases hi : insertAt s cursor c <;> rw [hi] at h <;> simp at h
    rcases h with ⟨h1, _⟩
    subst h1
    right; rfl
  case delete =>
    split at h
    · cases hi : removeAt s cursor <;> rw [hi] at h <;> simp at h
      rcases h with ⟨h1, _⟩
      subst h1
      right; rfl
    · simp at h
      rcases h with ⟨h1, _⟩
      subst h1
      left; rfl
  case backspace =>
    split at h
    · cases hi : removeAt s (prevOffset cursor 0 0 s) <;> rw [hi] at h <;> simp at h
      rcases h with ⟨h1, _⟩
      subst h1
      right; rfl
    · simp at h
      rcases h with ⟨h1, _⟩
      subst h1
      left; rfl
  all_goals
    first
      | (simp at h; rcases h with ⟨h1, _⟩; subst h1; left; rfl)
      | (split at h <;> (simp at h; rcases h with ⟨h1, _⟩; subst h1; left; rfl))

/-- Reverting a text field whose baseline is captured restores the
baseline text and makes the field clean. -/
theorem restore_with_baseline (f1 : Editable) (s : List Char)
    (h : Editable.strOrig f1 = some s) :
    (Editable.restore_orig f1).as_str = s ∧ (Editable.restore_orig f1).is_changed = false := by
  cases f1 <;> simp [Editable.strOrig] at h
  case Str m =>
    rw [show m = { cur := m.cur, orig := m.orig, cursor := m.cursor } from rfl]
    rw [h]
    simp [Editable.restore_orig, Editable.as_str, Editable.is_changed]

/-- C3 as amended: an edit on a previously unedited field captures the
pre-edit value as the baseline, and reverting then restores that value
with `is_changed = false`; for flag fields the same round trip holds and
edit–forget–revert leaves the value unchanged; but for text fields
edit–forget–revert clears the text to the empty string instead of
being a no-op. -/
theorem c3_edit_revert_roundtrip :
    (∀ (s : List Char) (cursor : Nat) (k : KeyCode) (f1 : Editable) (r : HandleRes),
        Editable.handle_event (.Str { cur := s, orig := none, cursor := cursor }) k
            = some (f1, r) →
        Editable.strOrig f1 = none ∨ Editable.strOrig f1 = some s)
      ∧ (∀ (f1 : Editable) (s : List Char),
          Editable.strOrig f1 = some s →
          (Editable.restore_orig f1).as_str = s
            ∧ (Editable.restore_orig f1).is_changed = false)
      ∧ (∀ b : Bool,
          Editable.handle_event (.BoolE b none) .enter
              = some (.BoolE (!b) (some b), .ReDraw)
            ∧ (Editable.restore_orig (.BoolE (!b) (some b))).as_str
              = Editable.as_str (.BoolE b none)
            ∧ (Editable.restore_orig (.BoolE (!b) (some b))).is_changed = false
            ∧ Editable.restore_orig (Editable.forget_orig (.BoolE (!b) (some b)))
              = .BoolE (!b) none)
      ∧ (∀ (s : List Char) (o : Option (List Char)) (c : Nat),
          Editable.restore_orig (Editable.forget_orig (.Str { cur := s, orig := o, cursor := c }))
            = .Str { cur := [], orig := none, cursor := c }) :=
  ⟨handle_event_str_baseline, restore_with_baseline, by decide, fun _ _ _ => rfl⟩

/-- Witness for C3: inserting `'b'` into `"a"` captures baseline
`"a"`; reverting restores `"a"` and clears dirtiness; forgetting then
reverting clears the text. -/
theorem c3_witness :
    (Editable.strOrig (.Str { cur := ['a', 'b'], orig := some ['a'], cursor := 2 }) = none
        ∨ Editable.strOrig (.Str { cur := ['a', 'b'], orig := some ['a'], cursor := 2 })
          = some ['a'])
      ∧ ((Editable.restore_orig (.Str { cur := ['a', 'b'], orig := some ['a'], cursor := 2 })).as_str
            = ['a']
          ∧ (Editable.restore_orig
              (.Str { cur := ['a', 'b'], orig := some ['a'], cursor := 2 })).is_changed = false)
      ∧ Editable.restore_orig (Editable.forget_orig
            (.Str { cur := ['a', 'b'], orig := some ['a'], cursor := 2 }))
          = .Str { cur := [], orig := none, cursor := 2 } :=
  ⟨c3_edit_revert_roundtrip.1 ['a'] 1 (.char 'b')
      (.Str { cur := ['a', 'b'], orig := some ['a'], cursor := 2 }) .ReDraw (by decide),
   c3_edit_revert_roundtrip.2.1
      (.Str { cur := ['a', 'b'], orig := some ['a'], cursor := 2 }) ['a'] rfl,
   c3_edit_revert_roundtrip.2.2.2 ['a', 'b'] (some ['a']) 2⟩

/-- A short page flips the sync state to exhausted. -/
theorem load_short_page_exhausts (v : UsersView) (fetch : Nat → Nat → FetchRes)
    (l : List UserInfoV1) (hs : v.sync_state = .Some)
    (hf : fetch v.user_list.length 32 = .ok l) (hl : l.length < 32) :
    (v.load_next_chunk fetch).1.sync_state = .Max := by
  simp [UsersView.load_next_chunk, hs, hf, hl]

/-- On an exhausted view a single `load_next_chunk` returns 0 records
without invoking the fetch and leaves the view untouched. -/
theorem load_exhausted_noop (v : UsersView) (fetch : Nat → Nat → FetchRes)
    (hs : v.sync_state = .Max) :
    v.load_next_chunk fetch = (v, .ok 0, 0) := by
  simp [UsersView.load_next_chunk, hs]

/-- On an exhausted view any sequence of `load_next_chunk` calls
returns 0 each time with zero fetch invocations in total. -/
theorem loadMany_exhausted (v : UsersView) (fs : List (Nat → Nat → FetchRes))
    (hs : v.sync_state = .Max) :
    v.loadMany fs = (v, fs.map (fun _ => .ok 0), 0) := by
  induction fs with
  | nil => simp [UsersView.loadMany]
  | cons f fs ih =>
    rw [UsersView.loadMany]
    rw [load_exhausted_noop v f hs]
    simp [ih]

/-- C5: a fetched page shorter than the page size (32) flips the sync
state to exhausted; on an exhausted view every subsequent
`load_next_chunk` returns 0 fetched without invoking `list_users`,
individually and across any sequence of further calls. -/
theorem c5_pagination_exhaustion :
    (∀ (v : UsersView) (fetch : Nat → Nat → FetchRes) (l : List UserInfoV1),
        v.sync_state = .Some → fetch v.user_list.length 32 = .ok l → l.length < 32 →
        (v.load_next_chunk fetch).1.sync_state = .Max)
      ∧ (∀ (v : UsersView) (fetch : Nat → Nat → FetchRes),
          v.sync_state = .Max → v.load_next_chunk fetch = (v, .ok 0, 0))
      ∧ (∀ (v : UsersView) (fs : List (Nat → Nat → FetchRes)),
          v.sync_state = .Max → v.loadMany fs = (v, fs.map (fun _ => .ok 0), 0)) :=
  ⟨load_short_page_exhausts, load_exhausted_noop, loadMany_exhausted⟩

/-- Witness for C5: a one-record page (short of 32) exhausts the sync
state, and two further loads on the exhausted view each return 0 with
zero fetch invocations. -/
theorem c5_witness :
    (exViewBase.load_next_chunk exFetch).1.sync_state = .Max
      ∧ exViewExhausted.load_next_chunk exFetch = (exViewExhausted, .ok 0, 0)
      ∧ exViewExhausted.loadMany [exFetch, exFetch]
        = (exViewExhausted, [.ok 0, .ok 0], 0) :=
  ⟨c5_pagination_exhaustion.1 exViewBase exFetch [exUser] rfl rfl (by decide),
   c5_pagination_exhaustion.2.1 exViewExhausted exFetch rfl,
   c5_pagination_exhaustion.2.2 exViewExhausted [exFetch, exFetch] rfl⟩

/-- C10: when every row has the full column count, `cur_item` never
panics (and the unchecked row access is in bounds): it returns no cell
exactly when the user list is empty, and otherwise clamps any
out-of-range `focus_y`/`focus_x` to 0 before accessing, so the returned
position indexes an existing cell. -/
theorem c10_cur_item_safe (v : UsersView)
    (h : ∀ r ∈ v.user_list, r.length = USER_COLUMNS_len) :
    ∃ v2 res, v.cur_item = some (v2, res)
      ∧ (res = none ↔ v.user_list = [])
      ∧ (∀ y x, res = some (y, x) →
          y < v2.user_list.length ∧ x < USER_COLUMNS_len
          ∧ v2.focus_y = y ∧ v2.focus_x = x ∧ v2.user_list = v.user_list
          ∧ ∃ i, v2.getItem y x = some i) := by
  obtain ⟨cp, pr, ss, ed, fx, fy, ul⟩ := v
  cases ul with
  | nil =>
    exact ⟨{ cur_prompt := cp, prompt := pr, sync_state := ss, editing := ed,
             focus_x := fx, focus_y := fy, user_list := [] }, none,
           by simp [UsersView.cur_item], by simp, by simp⟩
  | cons r rs =>
    have hr : r.length = USER_COLUMNS_len := h r (List.mem_cons_self r rs)
    have hr5 : r.length = 5 := hr
    by_cases hy : rs.length + 1 ≤ fy
    · by_cases hx : r.length ≤ fx
      · refine ⟨{ cur_prompt := cp, prompt := pr, sync_state := ss, editing := ed,
                  focus_x := 0, focus_y := 0, user_list := r :: rs }, some (0, 0),
                ?_, by simp, ?_⟩
        · simp [UsersView.cur_item, hy, hx, hr5]
          all_goals split <;> omega
        · intro y2 x2 hyx
          rw [Option.some.injEq, Prod.mk.injEq] at hyx
          obtain ⟨rfl, rfl⟩ := hyx
          refine ⟨by simp, by omega, rfl, rfl, rfl, ⟨r.get ⟨0, by omega⟩, ?_⟩⟩
          simp only [UsersView.getItem, List.getElem?_cons_zero]
          rw [List.getElem?_eq_getElem (show 0 < r.length by omega), List.get_eq_getElem]
      · refine ⟨{ cur_prompt := cp, prompt := pr, sync_state := ss, editing := ed,
                  focus_x := fx, focus_y := 0, user_list := r :: rs }, some (0, fx),
                ?_, by simp, ?_⟩
        · simp [UsersView.cur_item, hy, hx, hr5]
          all_goals split <;> omega
        · intro y2 x2 hyx
          rw [Option.some.injEq, Prod.mk.injEq] at hyx
          obtain ⟨rfl, rfl⟩ := hyx
          refine ⟨by simp, by omega, rfl, rfl, rfl, ⟨r.get ⟨fx, by omega⟩, ?_⟩⟩
          simp only [UsersView.getItem, List.getElem?_cons_zero]
          rw [List.getElem?_eq_getElem (show fx < r.length by omega), List.get_eq_getElem]
    · have hfy : fy < (r :: rs).length := by simp; omega
      have hrowy : (r :: rs)[fy]? = some (r :: rs)[fy] := List.getElem?_eq_getElem hfy
      have hrowlen : (r :: rs)[fy].length = 5 := by
        rw [show ((r :: rs)[fy] : List Editable).length = USER_COLUMNS_len from
              h _ (List.getElem_mem hfy)]
        rfl
      by_cases hx : (r :: rs)[fy].length ≤ fx
      · refine ⟨{ cur_prompt := cp, prompt := pr, sync_state := ss, editing := ed,
                  focus_x := 0, focus_y := fy, user_list := r :: rs }, some (fy, 0),
                ?_, by simp, ?_⟩
        · simp [UsersView.cur_item, hy, hrowy, hx, hrowlen]
          all_goals split <;> omega
        · intro y2 x2 hyx
          rw [Option.some.injEq, Prod.mk.injEq] at hyx
          obtain ⟨rfl, rfl⟩ := hyx
          refine ⟨hfy, by omega, rfl, rfl, rfl,
                  ⟨(r :: rs)[fy].get ⟨0, by omega⟩, ?_⟩⟩
          simp only [UsersView.getItem, hrowy]
          rw [List.getElem?_eq_getElem
                (show 0 < ((r :: rs)[fy] : List Editable).length by omega),
              List.get_eq_getElem]
      · refine ⟨{ cur_prompt := cp, prompt := pr, sync_state := ss, editing := ed,
                  focus_x := fx, focus_y := fy, user_list := r :: rs }, some (fy, fx),
                ?_, by simp, ?_⟩
        · simp [UsersView.cur_item, hy, hrowy, hx, hrowlen]
          all_goals split <;> omega
        · intro y2 x2 hyx
          rw [Option.some.injEq, Prod.mk.injEq] at hyx
          obtain ⟨rfl, rfl⟩ := hyx
          refine ⟨hfy, by omega, rfl, rfl, rfl,
                  ⟨(r :: rs)[fy].get ⟨fx, by omega⟩, ?_⟩⟩
          simp only [UsersView.getItem, hrowy]
          rw [List.getElem?_eq_getElem
                (show fx < ((r :: rs)[fy] : List Editable).length by omega),
              List.get_eq_getElem]

/-- Witness for C10: `cur_item` on the concrete exhausted view (whose
single row has 5 columns and whose focus is out of range on the y
axis) is safe. -/
theorem c10_witness :
    ∃ v2 res, exViewExhausted.cur_item = some (v2, res)
      ∧ (res = none ↔ exViewExhausted.user_list = [])
      ∧ (∀ y x, res = some (y, x) →
          y < v2.user_list.length ∧ x < USER_COLUMNS_len
          ∧ v2.focus_y = y ∧ v2.focus_x = x ∧ v2.user_list = exViewExhausted.user_list
          ∧ ∃ i, v2.getItem y x = some i) :=
  c10_cur_item_safe exViewExhausted (by decide)
